import Mathlib

/-!
Verification of the `upmc` updater (Rust) against its natural-language
specification.  The repository contains two crate revisions of the same
program: `updater-rs` (orchestrator `update.rs`, `retry.rs`, `bootstrap.rs`,
`version.rs`, `fabric.rs`) and `upmc` (channel-aware `selfupdate.rs`,
`config.rs`).  Each definition below is a shallow embedding of the named
Rust function; external effects (network, filesystem, child processes) are
modelled as explicit oracles or state so that the control flow, the order of
operations, and the persisted data are exactly those of the source.

Conventions:
* errors are modelled as `anyhow`-style context chains (`List String`,
  outermost context first), mirroring `.context(...)` wrapping;
* bytes are `Nat`s (< 256 in practice; no arithmetic is performed on them);
* strings are manipulated through character-list primitives that implement
  the exact semantics of the Rust `str` methods used by the source
  (`split`, `trim`, `starts_with`, `strip_prefix`, `trim_start_matches`,
  `to_lowercase`), so that every definition evaluates inside the kernel.
-/

set_option maxRecDepth 4000

/-- Anyhow-style error: a chain of human-readable context strings,
outermost context first (`err.context(c)` conses `c`). -/
abbrev Err := List String

-- ────────────────────────────────────────────────────────────
-- String primitives mirroring the Rust `str` methods used below
-- ────────────────────────────────────────────────────────────

/-- Rust `str::split(c)` on a character list: always returns at least one
(possibly empty) segment, splitting at every occurrence of `c`. -/
def splitOnChar (c : Char) : List Char → List (List Char)
  | [] => [[]]
  | x :: xs =>
    let rest := splitOnChar c xs
    if x = c then [] :: rest
    else
      match rest with
      | r :: rs => (x :: r) :: rs
      | [] => [[x]]

/-- Rust `str::split('.')` as a `String` operation. -/
def splitDot (s : String) : List String := (splitOnChar '.' s.data).map String.mk

/-- Rust `str::split('/')` as a `String` operation. -/
def splitSlash (s : String) : List String := (splitOnChar '/' s.data).map String.mk

/-- Rust `str::trim` (whitespace stripped from both ends). -/
def strTrim (s : String) : String :=
  String.mk (((s.data.dropWhile Char.isWhitespace).reverse.dropWhile Char.isWhitespace).reverse)

/-- Rust `str::starts_with(pre)`. -/
def strStartsWith (pre s : String) : Bool := pre.data.isPrefixOf s.data

/-- Rust `str::trim_start_matches('/')`. -/
def trimStartSlashes (s : String) : String := String.mk (s.data.dropWhile (· = '/'))

/-- Rust `str::to_lowercase` (ASCII-relevant part). -/
def toLowerStr (s : String) : String := String.mk (s.data.map Char.toLower)

-- ────────────────────────────────────────────────────────────
-- retry.rs — `with_retry` (src/updater-rs/src/retry.rs, lines 35-86)
-- ────────────────────────────────────────────────────────────

/-- The attempt loop of `with_retry`.  `f i` is the result of the
`(i+1)`-th invocation of the operation closure; `calls` counts invocations
already made and `remaining` the attempts still allowed.  Returns the loop
result (the last error, not yet context-wrapped) together with the total
number of invocations.  Sleeps and log lines are not modelled. -/
def withRetryAux {α : Type} (f : Nat → Except Err α) : Nat → Nat → Except Err α × Nat
  | _, 0 => (.error ["重试逻辑异常"], 0)
  | calls, remaining + 1 =>
    match f calls with
    | .ok v => (.ok v, calls + 1)
    | .error e =>
      if remaining = 0 then (.error e, calls + 1)
      else withRetryAux f (calls + 1) remaining

/-- Embedding of `retry::with_retry(max_attempts, base_delay_secs, operation_name, f)`.
`max_attempts == 0` fails fast (the `ensure!`); otherwise the operation is
invoked up to `max_attempts` times, the first success is returned, and the
final failure is wrapped with a context naming the operation and the total
attempt count.  The backoff delay only affects timing and is dropped.
Returns the result together with the number of invocations made. -/
def with_retry {α : Type} (max_attempts : Nat) (operation_name : String)
    (f : Nat → Except Err α) : Except Err α × Nat :=
  if max_attempts = 0 then (.error ["max_attempts 必须至少为 1"], 0)
  else
    match withRetryAux f 0 max_attempts with
    | (.ok v, n) => (.ok v, n)
    | (.error e, n) =>
      (.error ((operation_name ++ " 重试 " ++ Nat.repr max_attempts ++ " 次后仍然失败") :: e), n)

theorem withRetryAux_ok {α : Type} (f : Nat → Except Err α) (v : α) :
    ∀ (k calls remaining : Nat), k < remaining →
      (∀ i, i < k → ∃ e, f (calls + i) = .error e) →
      f (calls + k) = .ok v →
      withRetryAux f calls remaining = (.ok v, calls + k + 1) := by
  intro k
  induction k with
  | zero =>
    intro calls remaining hk _ hok
    match remaining, hk with
    | r + 1, _ =>
      simp only [withRetryAux]
      rw [show calls + 0 = calls by omega] at hok
      rw [hok]
  | succ k ih =>
    intro calls remaining hk herr hok
    match remaining, hk with
    | r + 1, hk =>
      have hr : k < r := by omega
      obtain ⟨e, he⟩ := herr 0 (by omega)
      rw [show calls + 0 = calls by omega] at he
      simp only [withRetryAux, he]
      have hrne : ¬ r = 0 := by omega
      simp only [hrne, if_false]
      have := ih (calls + 1) r hr
        (fun i hi => by
          obtain ⟨e', he'⟩ := herr (i + 1) (by omega)
          exact ⟨e', by rw [show calls + 1 + i = calls + (i + 1) by omega]; exact he'⟩)
        (by rw [show calls + 1 + k = calls + (k + 1) by omega]; exact hok)
      rw [show calls + 1 + k + 1 = calls + (k + 1) + 1 by omega] at this
      exact this

theorem withRetryAux_allfail {α : Type} (f : Nat → Except Err α) (err : Nat → Err)
    (hall : ∀ i, f i = .error (err i)) :
    ∀ (remaining calls : Nat), 1 ≤ remaining →
      withRetryAux f calls remaining = (.error (err (calls + remaining - 1)), calls + remaining) := by
  intro remaining
  induction remaining with
  | zero => intro calls h; omega
  | succ r ih =>
    intro calls _
    simp only [withRetryAux, hall calls]
    by_cases hr : r = 0
    · subst hr; simp
    · simp only [hr, if_false]
      rw [ih (calls + 1) (by omega),
        show calls + 1 + r - 1 = calls + (r + 1) - 1 by omega,
        show calls + 1 + r = calls + (r + 1) by omega]

/-- C3: for every `max_attempts ≥ 1`, (i) if the operation fails `k <
max_attempts` times and then succeeds, `with_retry` returns the success
value having invoked the closure exactly `k+1` times; (ii) if the operation
fails on every call, the closure is invoked exactly `max_attempts` times and
the result is the last error wrapped with a context string naming the
operation and that attempt count. -/
theorem with_retry_contract {α : Type} (operation_name : String) :
    (∀ (max_attempts k : Nat) (f : Nat → Except Err α) (v : α),
        1 ≤ max_attempts → k < max_attempts →
        (∀ i, i < k → ∃ e, f i = .error e) → f k = .ok v →
        with_retry max_attempts operation_name f = (.ok v, k + 1)) ∧
    (∀ (max_attempts : Nat) (f : Nat → Except Err α) (err : Nat → Err),
        1 ≤ max_attempts → (∀ i, f i = .error (err i)) →
        with_retry max_attempts operation_name f =
          (.error ((operation_name ++ " 重试 " ++ Nat.repr max_attempts ++ " 次后仍然失败")
              :: err (max_attempts - 1)),
           max_attempts)) := by
  constructor
  · intro maxA k f v hmax hk herr hok
    have h := withRetryAux_ok f v k 0 maxA hk
      (fun i hi => by simpa using herr i hi) (by simpa using hok)
    simp only [Nat.zero_add] at h
    simp only [with_retry, show ¬ maxA = 0 by omega, if_false, h]
  · intro maxA f err hmax hall
    have h := withRetryAux_allfail f err hall maxA 0 hmax
    simp only [Nat.zero_add] at h
    simp only [with_retry, show ¬ maxA = 0 by omega, if_false, h]

/-- Concrete operation for the C3 witness: fails on the first call,
succeeds on the second. -/
def c3OpFlaky : Nat → Except Err Nat := fun i => if i = 0 then .error ["网络超时"] else .ok 7

/-- Concrete always-failing operation for the C3 witness. -/
def c3OpBad : Nat → Except Err Nat := fun _ => .error ["连接被拒绝"]

/-- Witness for C3 at `max_attempts = 3`, `k = 1`, and at an
always-failing operation with `max_attempts = 2`. -/
theorem with_retry_contract_witness :
    with_retry 3 "下载文件" c3OpFlaky = (.ok 7, 2) ∧
    with_retry 2 "下载文件" c3OpBad =
      (.error ["下载文件 重试 2 次后仍然失败", "连接被拒绝"], 2) := by
  constructor
  · refine (with_retry_contract "下载文件").1 3 1 c3OpFlaky 7 (by omega) (by omega) ?_ rfl
    intro i hi
    have h0 : i = 0 := by omega
    subst h0
    exact ⟨["网络超时"], rfl⟩
  · exact (with_retry_contract "下载文件").2 2 c3OpBad (fun _ => ["连接被拒绝"])
      (by omega) (fun _ => rfl)

-- ────────────────────────────────────────────────────────────
-- version.rs — data model and version comparison
-- (src/updater-rs/src/version.rs)
-- ────────────────────────────────────────────────────────────

/-- Embedding of `LocalVersion` (version.rs lines 96-101): the persisted local record
`loc.json`.  `serde` `Default` gives empty strings for all fields. -/
structure LocalVersion where
  mc_version : String
  fabric_version : String
  version_tag : String
deriving DecidableEq, Repr

/-- Embedding of `LocalVersion::default()`: all fields empty (first run / corrupt file). -/
def LocalVersion.defaultVal : LocalVersion := ⟨"", "", ""⟩

/-- Embedding of `RemoteVersion` (version.rs lines 33-49), minus the `downloads` table,
which the orchestration model below treats through oracles. -/
structure RemoteVersion where
  mc_version : String
  fabric_version : String
  version_tag : String
  pack_url : String
deriving DecidableEq, Repr

/-- Embedding of `version::needs_version_upgrade` (version.rs lines 271-273): true iff
`mc_version` or `fabric_version` differ.  Note: `version_tag` is NOT
compared. -/
def needs_version_upgrade (remote : RemoteVersion) (loc : LocalVersion) : Bool :=
  remote.mc_version != loc.mc_version || remote.fabric_version != loc.fabric_version

/-- C7 counterexample: a local state that matches the remote on
`mc_version` and `fabric_version` but differs in its stored `version_tag`
field still yields `needs_version_upgrade = false`, refuting the claim that
a local state differing from the remote in any single tracked tag
(including `version_tag`) yields `true`. -/
theorem needs_version_upgrade_ignores_version_tag :
    needs_version_upgrade ⟨"1.21.11", "0.18.4", "fabric-loader-0.18.4-1.21.11", "u"⟩
        ⟨"1.21.11", "0.18.4", "some-other-tag"⟩ = false ∧
    ("fabric-loader-0.18.4-1.21.11" : String) ≠ "some-other-tag" := by
  exact ⟨rfl, by decide⟩

/-- C7 (amended): `needs_version_upgrade` is true iff
`mc_version` or `fabric_version` differs between remote and local state;
the stored `version_tag` field is not consulted, so a local state that differs
from the remote only in `version_tag` yields `false`. -/
theorem needs_version_upgrade_iff :
    (∀ (remote : RemoteVersion) (loc : LocalVersion),
        needs_version_upgrade remote loc = true ↔
          (remote.mc_version ≠ loc.mc_version ∨
           remote.fabric_version ≠ loc.fabric_version)) ∧
    (∀ (remote : RemoteVersion) (tag : String),
        needs_version_upgrade remote
          ⟨remote.mc_version, remote.fabric_version, tag⟩ = false) := by
  constructor
  · intro remote loc
    simp [needs_version_upgrade, bne_iff_ne]
  · intro remote tag
    simp [needs_version_upgrade]

/-- Witness for C7's amended iff at a concrete differing pair. -/
theorem needs_version_upgrade_iff_witness :
    needs_version_upgrade ⟨"1.21.11", "0.18.4", "t", "u"⟩ ⟨"1.21.4", "0.18.4", "t"⟩ = true :=
  (needs_version_upgrade_iff.1 _ _).mpr (Or.inl (by decide))

-- ────────────────────────────────────────────────────────────
-- update.rs — `run_update` orchestration (src/updater-rs/src/update.rs)
-- ────────────────────────────────────────────────────────────

/-- Embedding of `selfupdate::SelfUpdateResult`. -/
inductive SelfUpdateResult
  | upToDate
  | restarting
deriving DecidableEq, Repr

/-- Embedding of `update::UpdateResult`. -/
inductive UpdateResult
  | success
  | offline
  | selfUpdateRestarting
deriving DecidableEq, Repr

/-- Pipeline events of `run_update`, in the order the corresponding calls
appear in the source.  `logSelfUpdateFail` records the
`logging::write(...)` of a swallowed self-update error; the others record
invocations of the named functions. -/
inductive Ev
  | fetchRemote
  | selfUpdateCheck
  | logSelfUpdateFail
  | runBootstrap
  | installFabric
  | cleanupOldVersions
  | cleanModsDir
  | saveLocalVersion
  | ensureVanillaClient
  | fixVersionIsolation
  | syncModpack
deriving DecidableEq, Repr

/-- Oracle world for one `run_update` run: the outcome each external
operation would have if invoked, plus the persisted `local.json` content
(`localFile = none` models a missing or unparsable file). -/
structure World where
  fetchRemote : Except Err RemoteVersion
  pcl2Exists : Bool
  packwizJarExists : Bool
  fabricJarExists : Bool
  runBootstrap : Except Err Unit
  localFile : Option LocalVersion
  installFabric : Except Err Unit
  cleanupOldVersions : Except Err Unit
  cleanModsDir : Except Err Unit
  saveLocal : Except Err Unit
  ensureVanilla : Except Err Unit
  fixIsolation : Except Err Unit
  syncModpack : Except Err Unit

/-- Embedding of `bootstrap::needs_bootstrap` (bootstrap.rs lines 27-35): any of the
three key components missing. -/
def needs_bootstrap (w : World) : Bool :=
  !w.pcl2Exists || !w.packwizJarExists || !w.fabricJarExists

/-- Embedding of `bootstrap::is_bootstrapped` (bootstrap.rs lines 38-40): the PCL2
launcher executable exists. -/
def is_bootstrapped (w : World) : Bool := w.pcl2Exists

/-- Embedding of `version::read_local_version` (version.rs lines 243-251): best-effort
read; a missing or corrupt `local.json` yields the all-empty default. -/
def read_local_version (w : World) : LocalVersion :=
  w.localFile.getD LocalVersion.defaultVal

/-- Result of a `run_update` run: outcome, trace of executed pipeline
steps, and the final persisted `local.json` content. -/
structure RunOut where
  result : Except Err UpdateResult
  trace : List Ev
  localFile : Option LocalVersion

/-- Stages after the version-upgrade decision (update.rs lines 164-188):
`ensure_vanilla_client`, `fix_version_isolation`, `sync_modpack`, then the
`Success` outcome.  `lf` is the current `local.json` content; the returned
trace lists only this stage's steps. -/
def runTail (w : World) (lf : Option LocalVersion) : RunOut :=
  match w.ensureVanilla with
  | .error e => ⟨.error e, [.ensureVanillaClient], lf⟩
  | .ok _ =>
    match w.fixIsolation with
    | .error e => ⟨.error e, [.ensureVanillaClient, .fixVersionIsolation], lf⟩
    | .ok _ =>
      match w.syncModpack with
      | .error e =>
        ⟨.error e, [.ensureVanillaClient, .fixVersionIsolation, .syncModpack], lf⟩
      | .ok _ =>
        ⟨.ok .success, [.ensureVanillaClient, .fixVersionIsolation, .syncModpack], lf⟩

/-- Stage 2 of `run_update` (update.rs lines 130-162): if
`needs_version_upgrade`, run `install_fabric`, `cleanup_old_versions`,
`clean_mods_dir` and only then `save_local_version` with the remote tags;
each `?` propagates the first error.  On success the persisted record
becomes the remote's tags. -/
def runUpgrade (w : World) (remote : RemoteVersion) : RunOut :=
  if needs_version_upgrade remote (read_local_version w) then
    match w.installFabric with
    | .error e => ⟨.error e, [.installFabric], w.localFile⟩
    | .ok _ =>
      match w.cleanupOldVersions with
      | .error e => ⟨.error e, [.installFabric, .cleanupOldVersions], w.localFile⟩
      | .ok _ =>
        match w.cleanModsDir with
        | .error e =>
          ⟨.error e, [.installFabric, .cleanupOldVersions, .cleanModsDir], w.localFile⟩
        | .ok _ =>
          match w.saveLocal with
          | .error e =>
            ⟨.error e,
             [.installFabric, .cleanupOldVersions, .cleanModsDir, .saveLocalVersion],
             w.localFile⟩
          | .ok _ =>
            let t := runTail w
              (some ⟨remote.mc_version, remote.fabric_version, remote.version_tag⟩)
            ⟨t.result,
             [.installFabric, .cleanupOldVersions, .cleanModsDir, .saveLocalVersion] ++ t.trace,
             t.localFile⟩
  else runTail w w.localFile

/-- Stage 0 of `run_update` (update.rs lines 110-118): first-run bootstrap
if any key component is missing, then the upgrade stage. -/
def runBootstrapStage (w : World) (remote : RemoteVersion) : RunOut :=
  if needs_bootstrap w then
    match w.runBootstrap with
    | .error e => ⟨.error e, [.runBootstrap], w.localFile⟩
    | .ok _ =>
      let u := runUpgrade w remote
      ⟨u.result, .runBootstrap :: u.trace, u.localFile⟩
  else runUpgrade w remote

/-- Embedding of `update::run_update` (update.rs lines 60-189).  Stage order: fetch
remote state (offline / fatal branch), self-update check (`Restarting`
short-circuits; an error is logged and swallowed), bootstrap, version
upgrade, idempotent tail stages, content sync.  `selfUpdate` is the oracle
for what `selfupdate::check_and_update` would return. -/
def run_update (w : World) (selfUpdate : Except Err SelfUpdateResult) : RunOut :=
  match w.fetchRemote with
  | .error e =>
    if is_bootstrapped w then ⟨.ok .offline, [.fetchRemote], w.localFile⟩
    else ⟨.error ("首次运行需要网络连接来下载必要组件" :: e), [.fetchRemote], w.localFile⟩
  | .ok remote =>
    match selfUpdate with
    | .ok .restarting =>
      ⟨.ok .selfUpdateRestarting, [.fetchRemote, .selfUpdateCheck], w.localFile⟩
    | .ok .upToDate =>
      let u := runBootstrapStage w remote
      ⟨u.result, [.fetchRemote, .selfUpdateCheck] ++ u.trace, u.localFile⟩
    | .error _ =>
      let u := runBootstrapStage w remote
      ⟨u.result, [.fetchRemote, .selfUpdateCheck, .logSelfUpdateFail] ++ u.trace, u.localFile⟩

/-- C4: when fetching the remote state fails, `run_update` returns the
`Offline` outcome without executing any further stage if the install is
bootstrapped, and a fatal error (again with no further stage) on a first
run. -/
theorem run_update_offline_branch (w : World) (su : Except Err SelfUpdateResult) (e : Err)
    (h : w.fetchRemote = .error e) :
    (is_bootstrapped w = true →
      run_update w su = ⟨.ok .offline, [.fetchRemote], w.localFile⟩) ∧
    (is_bootstrapped w = false →
      run_update w su =
        ⟨.error ("首次运行需要网络连接来下载必要组件" :: e), [.fetchRemote], w.localFile⟩) := by
  constructor <;> intro hb <;> simp [run_update, h, hb]

/-- Concrete bootstrapped world whose remote fetch fails, for the C4
witness. -/
def wOffline : World :=
  { fetchRemote := .error ["连接失败"], pcl2Exists := true, packwizJarExists := true,
    fabricJarExists := true, runBootstrap := .ok (),
    localFile := none, installFabric := .ok (), cleanupOldVersions := .ok (),
    cleanModsDir := .ok (), saveLocal := .ok (), ensureVanilla := .ok (),
    fixIsolation := .ok (), syncModpack := .ok () }

/-- Witness for C4: the concrete bootstrapped world goes Offline after the
fetch stage alone. -/
theorem run_update_offline_branch_witness :
    run_update wOffline (.ok .upToDate) = ⟨.ok .offline, [.fetchRemote], none⟩ :=
  (run_update_offline_branch wOffline (.ok .upToDate) ["连接失败"] rfl).1 rfl

/-- Trace events that are actual pipeline steps (dropping the log entry
recorded when a self-update failure is swallowed). -/
def stageEvents (tr : List Ev) : List Ev :=
  tr.filter (fun ev => ev != Ev.logSelfUpdateFail)

/-- C5: a self-update check error never makes `run_update` fail — the run
behaves exactly like an `UpToDate` outcome apart from the logged failure,
executing every later stage; a `Restarting` outcome short-circuits the
pipeline with the `SelfUpdateRestarting` terminal outcome and no later
stage. -/
theorem selfupdate_error_swallowed (w : World) (remote : RemoteVersion) (e : Err)
    (h : w.fetchRemote = .ok remote) :
    (run_update w (.error e)).result = (run_update w (.ok .upToDate)).result ∧
    stageEvents (run_update w (.error e)).trace
        = stageEvents (run_update w (.ok .upToDate)).trace ∧
    Ev.logSelfUpdateFail ∈ (run_update w (.error e)).trace ∧
    run_update w (.ok .restarting)
        = ⟨.ok .selfUpdateRestarting, [.fetchRemote, .selfUpdateCheck], w.localFile⟩ := by
  refine ⟨?_, ?_, ?_, ?_⟩ <;> simp [run_update, h, stageEvents]

/-- Concrete remote state used by witnesses. -/
def remoteA : RemoteVersion :=
  ⟨"1.21.11", "0.18.4", "fabric-loader-0.18.4-1.21.11", "https://update.mc.chenjicheng.cn/pack.toml"⟩

/-- Concrete healthy world whose remote fetch succeeds, for the C5
witness. -/
def wHealthy : World :=
  { fetchRemote := .ok remoteA, pcl2Exists := true, packwizJarExists := true,
    fabricJarExists := true, runBootstrap := .ok (),
    localFile := some ⟨"1.21.11", "0.18.4", "fabric-loader-0.18.4-1.21.11"⟩,
    installFabric := .ok (), cleanupOldVersions := .ok (),
    cleanModsDir := .ok (), saveLocal := .ok (), ensureVanilla := .ok (),
    fixIsolation := .ok (), syncModpack := .ok () }

/-- Witness for C5: on the concrete world a self-update error leaves the
result identical to the up-to-date run and the failure is logged, while a
`Restarting` outcome short-circuits. -/
theorem selfupdate_error_swallowed_witness :
    (run_update wHealthy (.error ["自更新失败"])).result
        = (run_update wHealthy (.ok .upToDate)).result ∧
    Ev.logSelfUpdateFail ∈ (run_update wHealthy (.error ["自更新失败"])).trace ∧
    run_update wHealthy (.ok .restarting)
        = ⟨.ok .selfUpdateRestarting, [.fetchRemote, .selfUpdateCheck], wHealthy.localFile⟩ := by
  have h := selfupdate_error_swallowed wHealthy remoteA ["自更新失败"] rfl
  exact ⟨h.1, h.2.2.1, h.2.2.2⟩

/-- The component-upgrade stage in isolation: `save_local_version` appears
in the trace exactly when install, cleanup and mods-clearing all succeeded,
and the first error among them is returned with the persisted record
untouched. -/
theorem runUpgrade_core (w : World) (remote : RemoteVersion)
    (hup : needs_version_upgrade remote (read_local_version w) = true) :
    (Ev.saveLocalVersion ∈ (runUpgrade w remote).trace ↔
      (w.installFabric = .ok () ∧ w.cleanupOldVersions = .ok () ∧ w.cleanModsDir = .ok ())) ∧
    (∀ e, w.installFabric = .error e →
      (runUpgrade w remote).result = .error e ∧ (runUpgrade w remote).localFile = w.localFile) ∧
    (∀ e, w.installFabric = .ok () → w.cleanupOldVersions = .error e →
      (runUpgrade w remote).result = .error e ∧ (runUpgrade w remote).localFile = w.localFile) ∧
    (∀ e, w.installFabric = .ok () → w.cleanupOldVersions = .ok () → w.cleanModsDir = .error e →
      (runUpgrade w remote).result = .error e ∧ (runUpgrade w remote).localFile = w.localFile) := by
  cases hif : w.installFabric with
  | error e0 => simp [runUpgrade, hup, hif]
  | ok u =>
    cases u
    cases hcl : w.cleanupOldVersions with
    | error e0 => simp [runUpgrade, hup, hif, hcl]
    | ok u =>
      cases u
      cases hcm : w.cleanModsDir with
      | error e0 => simp [runUpgrade, hup, hif, hcl, hcm]
      | ok u =>
        cases u
        cases hsv : w.saveLocal with
        | error e0 => simp [runUpgrade, hup, hif, hcl, hcm, hsv]
        | ok u => cases u; simp [runUpgrade, hup, hif, hcl, hcm, hsv]

/-- When the pipeline reaches the upgrade stage (fetch succeeded,
self-update up to date, bootstrap passes), `run_update`'s result, persisted
record, and `save_local_version` trace membership coincide with the upgrade
stage's. -/
theorem run_update_reaches_upgrade (w : World) (remote : RemoteVersion)
    (hfetch : w.fetchRemote = .ok remote)
    (hboot : needs_bootstrap w = true → w.runBootstrap = .ok ()) :
    (run_update w (.ok .upToDate)).result = (runUpgrade w remote).result ∧
    ((Ev.saveLocalVersion ∈ (run_update w (.ok .upToDate)).trace) ↔
      Ev.saveLocalVersion ∈ (runUpgrade w remote).trace) ∧
    (run_update w (.ok .upToDate)).localFile = (runUpgrade w remote).localFile := by
  cases hnb : needs_bootstrap w with
  | false => simp [run_update, hfetch, runBootstrapStage, hnb]
  | true =>
    have hb := hboot hnb
    simp [run_update, hfetch, runBootstrapStage, hnb, hb]

/-- C2: during a component upgrade, `save_local_version` is invoked iff the
Fabric install, old-version cleanup and mods clearing all succeeded; if any
of them fails, `run_update` propagates that error, the persisted local
record is unchanged, and the upgrade would trigger again against the same
remote on the next run. -/
theorem save_local_version_write_after_success (w : World) (remote : RemoteVersion)
    (hfetch : w.fetchRemote = .ok remote)
    (hboot : needs_bootstrap w = true → w.runBootstrap = .ok ())
    (hup : needs_version_upgrade remote (read_local_version w) = true) :
    (Ev.saveLocalVersion ∈ (run_update w (.ok .upToDate)).trace ↔
      (w.installFabric = .ok () ∧ w.cleanupOldVersions = .ok () ∧ w.cleanModsDir = .ok ())) ∧
    (∀ e, w.installFabric = .error e →
      (run_update w (.ok .upToDate)).result = .error e ∧
      (run_update w (.ok .upToDate)).localFile = w.localFile ∧
      needs_version_upgrade remote
        (((run_update w (.ok .upToDate)).localFile).getD LocalVersion.defaultVal) = true) ∧
    (∀ e, w.installFabric = .ok () → w.cleanupOldVersions = .error e →
      (run_update w (.ok .upToDate)).result = .error e ∧
      (run_update w (.ok .upToDate)).localFile = w.localFile ∧
      needs_version_upgrade remote
        (((run_update w (.ok .upToDate)).localFile).getD LocalVersion.defaultVal) = true) ∧
    (∀ e, w.installFabric = .ok () → w.cleanupOldVersions = .ok () → w.cleanModsDir = .error e →
      (run_update w (.ok .upToDate)).result = .error e ∧
      (run_update w (.ok .upToDate)).localFile = w.localFile ∧
      needs_version_upgrade remote
        (((run_update w (.ok .upToDate)).localFile).getD LocalVersion.defaultVal) = true) := by
  obtain ⟨hres, hmem, hlf⟩ := run_update_reaches_upgrade w remote hfetch hboot
  obtain ⟨hcore1, hcore2, hcore3, hcore4⟩ := runUpgrade_core w remote hup
  refine ⟨hmem.trans hcore1, ?_, ?_, ?_⟩
  · intro e he
    obtain ⟨h1, h2⟩ := hcore2 e he
    refine ⟨hres.trans h1, hlf.trans h2, ?_⟩
    rw [hlf.trans h2]
    exact hup
  · intro e h0 he
    obtain ⟨h1, h2⟩ := hcore3 e h0 he
    refine ⟨hres.trans h1, hlf.trans h2, ?_⟩
    rw [hlf.trans h2]
    exact hup
  · intro e h0 h1' he
    obtain ⟨h1, h2⟩ := hcore4 e h0 h1' he
    refine ⟨hres.trans h1, hlf.trans h2, ?_⟩
    rw [hlf.trans h2]
    exact hup

/-- Concrete world mid-upgrade whose Fabric install fails, for the C2
witness. -/
def wUpgradeFail : World :=
  { fetchRemote := .ok remoteA, pcl2Exists := true, packwizJarExists := true,
    fabricJarExists := true, runBootstrap := .ok (),
    localFile := some ⟨"1.21.4", "0.16.9", "fabric-loader-0.16.9-1.21.4"⟩,
    installFabric := .error ["Fabric 安装失败"], cleanupOldVersions := .ok (),
    cleanModsDir := .ok (), saveLocal := .ok (), ensureVanilla := .ok (),
    fixIsolation := .ok (), syncModpack := .ok () }

/-- Witness for C2: with a failing Fabric install the error propagates, the
persisted record keeps the old tags, and `save_local_version` is never
invoked. -/
theorem save_local_version_write_after_success_witness :
    (run_update wUpgradeFail (.ok .upToDate)).result = .error ["Fabric 安装失败"] ∧
    (run_update wUpgradeFail (.ok .upToDate)).localFile
        = some ⟨"1.21.4", "0.16.9", "fabric-loader-0.16.9-1.21.4"⟩ ∧
    ¬ Ev.saveLocalVersion ∈ (run_update wUpgradeFail (.ok .upToDate)).trace := by
  have h := save_local_version_write_after_success wUpgradeFail remoteA rfl
    (fun _ => rfl) (by decide)
  obtain ⟨h1, h2, _⟩ := h.2.1 ["Fabric 安装失败"] rfl
  refine ⟨h1, h2, ?_⟩
  intro hmem
  have := h.1.mp hmem
  simp [wUpgradeFail] at this

-- ────────────────────────────────────────────────────────────
-- bootstrap.rs — archive extraction (src/updater-rs/src/bootstrap.rs)
-- ────────────────────────────────────────────────────────────

/-- First path segment of a ZIP entry name: Rust
`name.split('/').next()` (always defined, possibly empty). -/
def firstSegment (s : String) : String := String.mk ((splitOnChar '/' s.data).headD [])

/-- Embedding of `bootstrap::detect_common_prefix` (bootstrap.rs lines 295-327) over the
archive's entry names in index order: empty archive yields `none`; the
candidate is the first entry's first segment (`none` if empty); entries
from index 1 on must start with `candidate ++ "/"`.  Note the first entry
itself is never tested against the prefix. -/
def detect_common_prefix (names : List String) : Option String :=
  match names with
  | [] => none
  | first :: rest =>
    let candidate := firstSegment first
    if candidate = "" then none
    else
      let pre := candidate ++ "/"
      if rest.all (fun n => strStartsWith pre n) then some pre else none

/-- Per-entry output path of `extract_zip_strip_toplevel` (bootstrap.rs
lines 257-267): with a detected prefix, `strip_prefix(prefix)` falling back
to the full name, then `trim_start_matches('/')`; without one, the name
unchanged. -/
def stripEntryName : Option String → String → String
  | some p, name =>
    trimStartSlashes
      (if strStartsWith p name then String.mk (name.data.drop p.data.length) else name)
  | none, name => name

/-- The relative output paths written by
`bootstrap::extract_zip_strip_toplevel` (bootstrap.rs lines 242-289), in
entry order: each entry's stripped name, with empty results skipped (the
top-level directory entry itself). -/
def extract_zip_strip_toplevel_paths (names : List String) : List String :=
  let pre := detect_common_prefix names
  (names.map (stripEntryName pre)).filter (fun r => r != "")

/-- Without a detected prefix, `stripEntryName` is the identity. -/
theorem stripEntryName_none (name : String) : stripEntryName none name = name := rfl

/-- C9 counterexample: in the archive `["pkg", "pkg/x"]` every entry has
first path segment `"pkg"`, yet the written output paths are
`["pkg", "x"]` — the shared segment is not stripped from the entry
`"pkg"` (the detected prefix `"pkg/"` is not a literal prefix of it), so
stripping does not happen for every written output path as claimed. -/
theorem strip_toplevel_counterexample :
    firstSegment "pkg" = "pkg" ∧ firstSegment "pkg/x" = "pkg" ∧
    extract_zip_strip_toplevel_paths ["pkg", "pkg/x"] = ["pkg", "x"] := ⟨rfl, rfl, rfl⟩

/-- C9 (amended): if every entry after the first starts with the first
entry's first segment followed by `/` (the segment being nonempty), that
prefix is detected and stripped from each output on which it occurs as a
literal prefix; if some later entry does not carry the prefix (in
particular when entries disagree on the first segment), or the archive is
empty, every entry is written at its original relative path.  The concrete
example `pkg/bin/tool.exe`, `pkg/lib/data` yields `bin/tool.exe`,
`lib/data`. -/
theorem strip_toplevel_amended :
    (∀ (first : String) (rest : List String),
        firstSegment first ≠ "" →
        (∀ n ∈ rest, strStartsWith (firstSegment first ++ "/") n = true) →
        detect_common_prefix (first :: rest) = some (firstSegment first ++ "/")) ∧
    (∀ (first : String) (rest : List String) (n : String),
        n ∈ rest → strStartsWith (firstSegment first ++ "/") n = false →
        detect_common_prefix (first :: rest) = none ∧
        extract_zip_strip_toplevel_paths (first :: rest)
          = (first :: rest).filter (fun r => r != "")) ∧
    extract_zip_strip_toplevel_paths [] = [] ∧
    extract_zip_strip_toplevel_paths ["pkg/bin/tool.exe", "pkg/lib/data"]
      = ["bin/tool.exe", "lib/data"] := by
  refine ⟨?_, ?_, rfl, rfl⟩
  · intro first rest hne hall
    simp only [ detect_common_prefix, hne, if_false, List.all_eq_true]
    exact if_pos hall
  · intro first rest n hn hfalse
    have hdet : detect_common_prefix (first :: rest) = none := by
      by_cases hc : firstSegment first = ""
      · simp [ detect_common_prefix, hc]
      · simp only [ detect_common_prefix, hc, if_false]
        have : ¬ rest.all (fun m => strStartsWith (firstSegment first ++ "/") m) = true := by
          intro hall
          have := List.all_eq_true.mp hall n hn
          rw [hfalse] at this
          exact Bool.noConfusion this
        simp [this]
    refine ⟨hdet, ?_⟩
    have hmap : ∀ l : List String, l.map (stripEntryName none) = l := by
      intro l
      induction l with
      | nil => rfl
      | cons a t ih => simp [stripEntryName_none, ih]
    simp [extract_zip_strip_toplevel_paths, hdet, stripEntryName_none, hmap]

/-- Witness for C9's amended claim: both directions applied to concrete
archives. -/
theorem strip_toplevel_amended_witness :
    detect_common_prefix ["pkg/bin/tool.exe", "pkg/lib/data"] = some "pkg/" ∧
    detect_common_prefix ["alpha/x", "beta/y"] = none ∧
    extract_zip_strip_toplevel_paths ["alpha/x", "beta/y"] = ["alpha/x", "beta/y"] := by
  refine ⟨?_, ?_, ?_⟩
  · exact strip_toplevel_amended.1 "pkg/bin/tool.exe" ["pkg/lib/data"] (by decide)
      (by intro n hn; simp at hn; subst hn; rfl)
  · exact (strip_toplevel_amended.2.1 "alpha/x" ["beta/y"] "beta/y" (by simp) rfl).1
  · exact (strip_toplevel_amended.2.1 "alpha/x" ["beta/y"] "beta/y" (by simp) rfl).2

/-- A ZIP archive entry: name (as stored, `/`-separated), directory flag,
and file contents as bytes. -/
structure ZipEntry where
  name : String
  isDir : Bool
  data : List Nat
deriving DecidableEq, Repr

/-- Filesystem model: absolute paths are component lists; `files` maps a
path to its bytes, `dirs` records created directories. -/
structure FS where
  files : List (List String × List Nat)
  dirs : List (List String)
deriving DecidableEq, Repr

/-- The empty filesystem. -/
def FS.empty : FS := ⟨[], []⟩

/-- Rust `Path::exists()` — a file or directory is present at `p`. -/
def pathExists (fs : FS) (p : List String) : Bool :=
  fs.files.any (fun f => f.1 == p) || fs.dirs.any (fun d => d == p)

/-- Rust `fs::create_dir_all` (modelled as recording the directory; always
succeeds). -/
def createDirAll (fs : FS) (p : List String) : FS :=
  if fs.dirs.any (fun d => d == p) then fs else ⟨fs.files, p :: fs.dirs⟩

/-- Rust `fs::File::create` + `io::copy`: write (or overwrite) the file. -/
def addFile (fs : FS) (p : List String) (data : List Nat) : FS :=
  ⟨(p, data) :: fs.files, fs.dirs⟩

/-- OS-level resolution of the path the entry is written to: the
components of `dest.join(name)` with `.`/empty segments dropped and `..`
popping one component, as the OS resolves them at create time. -/
def resolveSegs : List String → List String → List String
  | acc, [] => acc
  | acc, seg :: rest =>
    if seg = "" ∨ seg = "." then resolveSegs acc rest
    else if seg = ".." then resolveSegs acc.dropLast rest
    else resolveSegs (acc ++ [seg]) rest

/-- Resolution of `dest.join(entry_name)` (entry names are `/`-separated). -/
def resolvePath (dest : List String) (name : String) : List String :=
  resolveSegs dest (splitSlash name)

/-- One loop iteration of `extract_settings_zip` (bootstrap.rs lines
344-370): skip empty names, create directories for directory entries, skip
file entries whose destination exists, otherwise create the parent and
write the file.  The loop performs NO check on the entry's path — the name
is joined onto `dest` as-is. -/
def extractSettingsEntry (dest : List String) (fs : FS) (e : ZipEntry) : FS :=
  if e.name = "" then fs
  else
    let out := resolvePath dest e.name
    if e.isDir then createDirAll fs out
    else if pathExists fs out then fs
    else addFile (createDirAll fs out.dropLast) out e.data

/-- Embedding of `bootstrap::extract_settings_zip` (bootstrap.rs lines 337-373):
`create_dir_all(dest)` then the entry loop.  The only fallible operations
in the source are filesystem/ZIP I/O primitives (modelled as total here);
no code path rejects an entry because of its name, so the function is
`.ok` for every archive. -/
def extract_settings_zip (dest : List String) (entries : List ZipEntry) (fs : FS) :
    Except Err FS :=
  .ok (entries.foldl (extractSettingsEntry dest) (createDirAll fs dest))

/-- C1 counterexample: an archive whose single entry is named
`../evil.txt` is NOT rejected — extraction succeeds and writes the file at
`base/evil.txt`, which is outside the destination directory
`base/.minecraft` (the destination is not a prefix of the written path). -/
theorem extract_settings_zip_counterexample :
    extract_settings_zip ["base", ".minecraft"] [⟨"../evil.txt", false, [42]⟩] FS.empty
      = .ok ⟨[(["base", "evil.txt"], [42])], [["base"], ["base", ".minecraft"]]⟩ ∧
    List.isPrefixOf ["base", ".minecraft"] ["base", "evil.txt"] = false := ⟨rfl, rfl⟩

/-- C1 (amended): `extract_settings_zip` performs no path-traversal check:
it never fails because of an entry's name (extraction returns `.ok` on
every archive), and a new file entry is written at the OS-resolved join of
the destination and its literal name — even when `..` segments make that
path escape the destination directory. -/
theorem extract_settings_zip_amended :
    (∀ (dest : List String) (entries : List ZipEntry) (fs : FS),
        ∃ fs', extract_settings_zip dest entries fs = .ok fs') ∧
    (∀ (dest : List String) (name : String) (data : List Nat) (fs : FS),
        name ≠ "" →
        pathExists (createDirAll fs dest) (resolvePath dest name) = false →
        extract_settings_zip dest [⟨name, false, data⟩] fs =
          .ok (addFile (createDirAll (createDirAll fs dest) (resolvePath dest name).dropLast)
                 (resolvePath dest name) data)) := by
  constructor
  · intro dest entries fs
    exact ⟨_, rfl⟩
  · intro dest name data fs hname hex
    simp [extract_settings_zip, extractSettingsEntry, hname, hex]

/-- Witness for C1's amended claim: the traversal entry `../evil.txt` is
written (outside the destination), with both hypotheses discharged
concretely. -/
theorem extract_settings_zip_amended_witness :
    extract_settings_zip ["base", ".minecraft"] [⟨"../evil.txt", false, [7]⟩] FS.empty =
      .ok (addFile
            (createDirAll (createDirAll FS.empty ["base", ".minecraft"])
              (resolvePath ["base", ".minecraft"] "../evil.txt").dropLast)
            (resolvePath ["base", ".minecraft"] "../evil.txt") [7]) :=
  extract_settings_zip_amended.2 ["base", ".minecraft"] "../evil.txt" [7] FS.empty
    (by decide) rfl

-- ────────────────────────────────────────────────────────────
-- upmc selfupdate.rs — semantic version comparison
-- (src/upmc/src/selfupdate.rs, lines 64-89)
-- ────────────────────────────────────────────────────────────

/-- Rust `str::parse::<u64>()`: optional leading `+`, at least one digit,
digits only, value must fit in 64 bits. -/
def parseU64 (s : String) : Option Nat :=
  let cs := match s.data with
    | '+' :: rest => rest
    | cs => cs
  if cs = [] then none
  else if cs.all Char.isDigit then
    let n := cs.foldl (fun acc c => acc * 10 + (c.toNat - 48)) 0
    if n < 18446744073709551616 then some n else none
  else none

/-- Embedding of `selfupdate::parse_semver` (selfupdate.rs lines 67-76): trim, split on
`.`, require exactly three components, each parsed as `u64`. -/
def parse_semver (version : String) : Option (Nat × Nat × Nat) :=
  match splitDot (strTrim version) with
  | [a, b, c] => do
    let major ← parseU64 a
    let minor ← parseU64 b
    let patch ← parseU64 c
    pure (major, minor, patch)
  | _ => none

/-- Rust's derived lexicographic `Ord` on `(u64, u64, u64)`. -/
def semverLt : Nat × Nat × Nat → Nat × Nat × Nat → Bool
  | (a1, a2, a3), (b1, b2, b3) =>
    Nat.blt a1 b1 || (Nat.beq a1 b1 && (Nat.blt a2 b2 || (Nat.beq a2 b2 && Nat.blt a3 b3)))

/-- Embedding of `selfupdate::is_remote_newer` (selfupdate.rs lines 81-89): remote
strictly newer under lexicographic comparison; any parse failure yields
`false` (fail closed). -/
def is_remote_newer (current remote : String) : Bool :=
  match parse_semver current, parse_semver remote with
  | some cur, some rem => semverLt cur rem
  | _, _ => false

/-- C8: `is_remote_newer` parses both arguments as strict three-component
dotted integers, returns `false` whenever either fails to parse, and on the
spec's concrete inputs gives `("1.2.3","1.2.3") = false`,
`("1.2.3","1.3.0") = true`, `("1.2.3","bad") = false`. -/
theorem is_remote_newer_spec :
    (∀ current remote, (parse_semver current = none ∨ parse_semver remote = none) →
        is_remote_newer current remote = false) ∧
    is_remote_newer "1.2.3" "1.2.3" = false ∧
    is_remote_newer "1.2.3" "1.3.0" = true ∧
    is_remote_newer "1.2.3" "bad" = false := by
  refine ⟨?_, rfl, rfl, rfl⟩
  intro current remote h
  cases hc : parse_semver current <;> cases hr : parse_semver remote <;>
    simp_all [is_remote_newer]

/-- Witness for C8's fail-closed direction at a concrete malformed
version. -/
theorem is_remote_newer_spec_witness : is_remote_newer "9.9" "1.0.0" = false :=
  is_remote_newer_spec.1 "9.9" "1.0.0" (Or.inl (by decide))

-- ────────────────────────────────────────────────────────────
-- upmc config.rs / main.rs — update channel configuration
-- ────────────────────────────────────────────────────────────

/-- Embedding of `config::UpdateChannel` (config.rs lines 39-44). -/
inductive UpdateChannel
  | stable
  | dev
deriving DecidableEq, Repr

/-- Embedding of `config::ChannelConfig` (config.rs lines 62-72): persisted
`channel.json` content. -/
structure ChannelConfig where
  channel : UpdateChannel
  dev_build_id : Option String
deriving DecidableEq, Repr

/-- The `--channel` scan loop of `main::resolve_channel` (main.rs lines
49-68) over the argument list after the program name: `--channel` followed
by a value (case-insensitively `dev` or `stable`) selects that channel; an
unrecognized value only logs and leaves the selection unchanged; a trailing
`--channel` without value falls through. -/
def parseCliChannel : List String → Option UpdateChannel → Option UpdateChannel
  | [], acc => acc
  | a :: rest, acc =>
    if a = "--channel" then
      match rest with
      | [] => acc
      | v :: rest' =>
        let acc' := if toLowerStr v = "dev" then some UpdateChannel.dev
                    else if toLowerStr v = "stable" then some UpdateChannel.stable
                    else acc
        parseCliChannel rest' acc'
    else parseCliChannel rest acc

/-- Embedding of `main::resolve_channel` (main.rs lines 48-89): with a CLI channel the
file config is re-read, its channel overwritten, `dev_build_id` cleared
when switching to Stable, and the result saved; without one, the persisted
config is used and nothing is saved.  Returns the in-memory config and the
saved file content (`none` when no save happens). -/
def resolve_channel (args : List String) (file : ChannelConfig) :
    ChannelConfig × Option ChannelConfig :=
  match parseCliChannel (args.drop 1) none with
  | some ch =>
    let cfg : ChannelConfig :=
      { channel := ch
        dev_build_id := if ch = UpdateChannel.stable then none else file.dev_build_id }
    (cfg, some cfg)
  | none => (file, none)

-- ────────────────────────────────────────────────────────────
-- upmc selfupdate.rs — `check_and_update` (lines 144-332)
-- ────────────────────────────────────────────────────────────

/-- Embedding of `selfupdate::UpdaterVersionInfo` (selfupdate.rs lines 92-101). -/
structure UpdaterVersionInfo where
  version : String
  download_url : String
  build_id : Option String
deriving DecidableEq, Repr

/-- The verification block of the download closure (selfupdate.rs lines
253-267): the temp file must be non-empty, and reading its first two bytes
must succeed and yield the PE magic `MZ` (`0x4D 0x5A` = 77 90). -/
def verifyDownloaded (bytes : List Nat) : Except Err Unit :=
  if bytes.length = 0 then .error ["下载的更新器文件为空"]
  else
    match bytes with
    | b0 :: b1 :: _ =>
      if b0 == 77 && b1 == 90 then .ok () else .error ["下载的文件不是有效的可执行文件"]
    | _ => .error ["下载的文件不是有效的可执行文件"]

/-- One invocation of the `download_and_verify` closure (selfupdate.rs
lines 206-269).  `net i` is the network outcome of attempt `i` (starting at
0): a failure before the temp file is created leaves it as-is, a received
body is written to the temp file (recreating it) and then verified. -/
def downloadAttemptStep (net : Nat → Except Err (List Nat)) (i : Nat)
    (temp : Option (List Nat)) : Except Err Unit × Option (List Nat) :=
  match net i with
  | .error e => (.error ("下载更新器新版本失败" :: e), temp)
  | .ok bytes => (verifyDownloaded bytes, some bytes)

/-- The `with_retry` attempt loop (retry.rs lines 48-76) instantiated at
the stateful `download_and_verify` closure, threading the temp-file
state across attempts. -/
def downloadRetryAux (net : Nat → Except Err (List Nat)) :
    Nat → Nat → Option (List Nat) → Except Err Unit × Option (List Nat)
  | _, 0, temp => (.error ["重试逻辑异常"], temp)
  | i, remaining + 1, temp =>
    let step := downloadAttemptStep net i temp
    match step.1 with
    | .ok _ => (.ok (), step.2)
    | .error e =>
      if remaining = 0 then (.error e, step.2)
      else downloadRetryAux net (i + 1) remaining step.2

/-- The download-and-verify unit of `check_and_update` (selfupdate.rs lines
271-281): `with_retry(RETRY_MAX_ATTEMPTS = 3, ...)` around the closure,
the final error wrapped with the retry context; on failure the temp file is
deleted (`fs::remove_file`). -/
def downloadPhase (net : Nat → Except Err (List Nat)) :
    Except Err Unit × Option (List Nat) :=
  match downloadRetryAux net 0 3 none with
  | (.ok _, temp) => (.ok (), temp)
  | (.error e, _) =>
    (.error (("下载更新器" ++ " 重试 " ++ Nat.repr 3 ++ " 次后仍然失败") :: e), none)

/-- The freshness decision of `check_and_update` (selfupdate.rs lines
164-177): Stable compares semantic versions, Dev compares build ids (local
missing forces an update, remote missing means no update). -/
def needs_self_update (cfg : ChannelConfig) (info : UpdaterVersionInfo)
    (currentVersion : String) : Bool :=
  match cfg.channel with
  | .stable => is_remote_newer currentVersion info.version
  | .dev =>
    match info.build_id, cfg.dev_build_id with
    | some r, some l => r != l
    | some _, none => true
    | _, _ => false

/-- Oracle world for one `check_and_update` run: the (post-retry) result of
`fetch_updater_info`, the compiled-in current version, the per-attempt
download outcomes, the persisted `channel.json` content, and the outcome of
spawning the PowerShell helper. -/
structure SUWorld where
  fetchInfo : Except Err UpdaterVersionInfo
  currentVersion : String
  net : Nat → Except Err (List Nat)
  channelFile : ChannelConfig
  spawnHelper : Except Err Unit

/-- Result of a `check_and_update` run: outcome, final temp-file content
(`none` = deleted/never created), and final `channel.json` content. -/
structure SUOut where
  result : Except Err SelfUpdateResult
  temp : Option (List Nat)
  channelFile : ChannelConfig

/-- Embedding of `selfupdate::check_and_update` of the `upmc` crate (selfupdate.rs lines
144-332): fetch version info, decide freshness per channel, download and
verify with retries (deleting the temp file and propagating the error when
the unit fails), persist the new `build_id` on the Dev channel, then spawn
the PowerShell replacement helper and report `Restarting`. -/
def check_and_update (w : SUWorld) (cfg : ChannelConfig) : SUOut :=
  match w.fetchInfo with
  | .error e => ⟨.error e, none, w.channelFile⟩
  | .ok info =>
    if needs_self_update cfg info w.currentVersion = false then
      ⟨.ok .upToDate, none, w.channelFile⟩
    else
      match downloadPhase w.net with
      | (.error e, t) => ⟨.error e, t, w.channelFile⟩
      | (.ok _, temp) =>
        let file' :=
          if cfg.channel = UpdateChannel.dev then
            match info.build_id with
            | some id => { w.channelFile with dev_build_id := some id }
            | none => w.channelFile
          else w.channelFile
        match w.spawnHelper with
        | .error e => ⟨.error ("启动 PowerShell 替换脚本失败" :: e), temp, file'⟩
        | .ok _ => ⟨.ok .restarting, temp, file'⟩

/-- Verification succeeds exactly for a non-empty file whose first two
bytes are the PE magic. -/
theorem verifyDownloaded_ok_iff (bytes : List Nat) :
    verifyDownloaded bytes = .ok () ↔ bytes ≠ [] ∧ bytes.take 2 = [77, 90] := by
  match bytes with
  | [] => simp [verifyDownloaded]
  | [b] => simp [verifyDownloaded]
  | b0 :: b1 :: rest =>
    by_cases h0 : b0 = 77 <;> by_cases h1 : b1 = 90 <;>
      simp [verifyDownloaded, h0, h1]

/-- Attempt `j` of the download-and-verify unit fails: either the network
transfer fails or the received bytes fail verification. -/
def attemptFails (net : Nat → Except Err (List Nat)) (j : Nat) : Prop :=
  (∃ e, net j = .error e) ∨ ∃ bytes, net j = .ok bytes ∧ verifyDownloaded bytes ≠ .ok ()

theorem downloadRetryAux_allfail (net : Nat → Except Err (List Nat)) :
    ∀ (remaining i : Nat) (temp : Option (List Nat)), 1 ≤ remaining →
      (∀ j, j < remaining → attemptFails net (i + j)) →
      ∃ e t, downloadRetryAux net i remaining temp = (.error e, t) := by
  intro remaining
  induction remaining with
  | zero => intro i temp h; omega
  | succ r ih =>
    intro i temp _ hfail
    have hstep : ∃ e t, downloadAttemptStep net i temp = (.error e, t) := by
      rcases hfail 0 (by omega) with ⟨e, he⟩ | ⟨bytes, hb, hv⟩
      · rw [show i + 0 = i by omega] at he
        exact ⟨"下载更新器新版本失败" :: e, temp, by simp [downloadAttemptStep, he]⟩
      · rw [show i + 0 = i by omega] at hb
        cases hvv : verifyDownloaded bytes with
        | ok u => cases u; exact absurd hvv hv
        | error e => exact ⟨e, some bytes, by simp [downloadAttemptStep, hb, hvv]⟩
    obtain ⟨e, t, hstep⟩ := hstep
    by_cases hr : r = 0
    · subst hr
      exact ⟨e, t, by simp [downloadRetryAux, hstep]⟩
    · obtain ⟨e', t', hrec⟩ := ih (i + 1) t (by omega)
        (fun j hj => by
          have := hfail (j + 1) (by omega)
          rw [show i + (j + 1) = i + 1 + j by omega] at this
          exact this)
      refine ⟨e', t', ?_⟩
      simp only [downloadRetryAux, hstep, hr, if_false]
      exact hrec

/-- C6: a downloaded updater binary passes verification iff the temp file
is non-empty and its first two bytes are the platform executable magic
(`MZ`); and when every attempt of the download-and-verify unit fails, the
retries are exhausted, the temp file is deleted, and `check_and_update`
returns an error — in particular not `UpToDate`. -/
theorem check_and_update_verification (w : SUWorld) (cfg : ChannelConfig)
    (info : UpdaterVersionInfo)
    (hinfo : w.fetchInfo = .ok info)
    (hneeds : needs_self_update cfg info w.currentVersion = true)
    (hfail : ∀ j, j < 3 → attemptFails w.net j) :
    (∀ bytes, verifyDownloaded bytes = .ok () ↔ bytes ≠ [] ∧ bytes.take 2 = [77, 90]) ∧
    ∃ e, check_and_update w cfg = ⟨.error e, none, w.channelFile⟩ ∧
      check_and_update w cfg ≠ ⟨.ok .upToDate, none, w.channelFile⟩ := by
  refine ⟨verifyDownloaded_ok_iff, ?_⟩
  obtain ⟨e, t, hdl⟩ := downloadRetryAux_allfail w.net 3 0 none (by omega)
    (fun j hj => by simpa using hfail j hj)
  have hphase : downloadPhase w.net =
      (.error (("下载更新器" ++ " 重试 " ++ Nat.repr 3 ++ " 次后仍然失败") :: e), none) := by
    simp [downloadPhase, hdl]
  refine ⟨("下载更新器" ++ " 重试 " ++ Nat.repr 3 ++ " 次后仍然失败") :: e, ?_, ?_⟩
  · simp [check_and_update, hinfo, hneeds, hphase]
  · simp [check_and_update, hinfo, hneeds, hphase]

/-- Concrete world for the C6 witness: the remote reports a newer version,
every download attempt yields a two-byte file that is not a PE image. -/
def wBadDownload : SUWorld :=
  { fetchInfo := .ok ⟨"9.9.9", "https://example.com/upmc.exe", none⟩,
    currentVersion := "1.0.0",
    net := fun _ => .ok [0, 0],
    channelFile := ⟨.stable, none⟩,
    spawnHelper := .ok () }

/-- Witness for C6: on the concrete world the download phase exhausts its
retries, deletes the temp file, and fails. -/
theorem check_and_update_verification_witness :
    ∃ e, check_and_update wBadDownload ⟨.stable, none⟩ = ⟨.error e, none, ⟨.stable, none⟩⟩ := by
  obtain ⟨e, h1, _⟩ := (check_and_update_verification wBadDownload ⟨.stable, none⟩
    ⟨"9.9.9", "https://example.com/upmc.exe", none⟩ rfl (by decide)
    (fun j hj => Or.inr ⟨[0, 0], rfl, by simp [verifyDownloaded]⟩)).2
  exact ⟨e, h1⟩

/-- Lemma: `check_and_update` never changes the persisted channel selection, only
(at most) the `dev_build_id` field. -/
theorem check_and_update_channel_preserved (w : SUWorld) (cfg : ChannelConfig) :
    (check_and_update w cfg).channelFile.channel = w.channelFile.channel := by
  unfold check_and_update
  cases hfi : w.fetchInfo with
  | error e => rfl
  | ok info =>
    by_cases hn : needs_self_update cfg info w.currentVersion = false
    · simp [hn]
    · simp only [hn, if_false]
      rcases hdl : downloadPhase w.net with ⟨r, t⟩
      cases r with
      | error e => simp [hdl]
      | ok u =>
        cases u
        cases hsp : w.spawnHelper with
        | error e =>
          by_cases hc : cfg.channel = UpdateChannel.dev
          · cases hb : info.build_id <;> simp [hdl, hsp, hc, hb]
          · simp [hdl, hsp, hc]
        | ok u' =>
          cases u'
          by_cases hc : cfg.channel = UpdateChannel.dev
          · cases hb : info.build_id <;> simp [hdl, hsp, hc, hb]
          · simp [hdl, hsp, hc]

/-- On the Stable channel, `check_and_update` never writes the channel
file at all. -/
theorem check_and_update_stable_keeps_file (w : SUWorld) (cfg : ChannelConfig)
    (hst : cfg.channel = UpdateChannel.stable) :
    (check_and_update w cfg).channelFile = w.channelFile := by
  unfold check_and_update
  cases hfi : w.fetchInfo with
  | error e => rfl
  | ok info =>
    by_cases hn : needs_self_update cfg info w.currentVersion = false
    · simp [hn]
    · simp only [hn, if_false]
      rcases hdl : downloadPhase w.net with ⟨r, t⟩
      cases r with
      | error e => simp [hdl]
      | ok u =>
        cases u
        cases hsp : w.spawnHelper with
        | error e => simp [hdl, hsp, hst]
        | ok u' => cases u'; simp [hdl, hsp, hst]

/-- C10: every operation that persists the channel configuration keeps
`dev_build_id` absent on the Stable channel: selecting `--channel stable`
saves a config with `dev_build_id = none`; the self-updater leaves the
channel file untouched on Stable (so it writes a `dev_build_id` only when
the active channel is Dev); and a run whose active channel matches the
persisted one preserves the invariant `channel = Stable → dev_build_id =
none` across the self-update. -/
theorem channel_stable_invariant :
    (∀ (args : List String) (file saved : ChannelConfig),
        (resolve_channel args file).2 = some saved →
        saved.channel = UpdateChannel.stable → saved.dev_build_id = none) ∧
    (∀ (w : SUWorld) (cfg : ChannelConfig), cfg.channel = UpdateChannel.stable →
        (check_and_update w cfg).channelFile = w.channelFile) ∧
    (∀ (w : SUWorld) (cfg : ChannelConfig),
        (check_and_update w cfg).channelFile ≠ w.channelFile →
        cfg.channel = UpdateChannel.dev) ∧
    (∀ (w : SUWorld) (cfg : ChannelConfig),
        cfg.channel = w.channelFile.channel →
        (w.channelFile.channel = UpdateChannel.stable → w.channelFile.dev_build_id = none) →
        ((check_and_update w cfg).channelFile.channel = UpdateChannel.stable →
          (check_and_update w cfg).channelFile.dev_build_id = none)) := by
  refine ⟨?_, check_and_update_stable_keeps_file, ?_, ?_⟩
  · intro args file saved hsave hst
    unfold resolve_channel at hsave
    cases hp : parseCliChannel (args.drop 1) none with
    | none => rw [hp] at hsave; exact absurd hsave (by simp)
    | some ch =>
      rw [hp] at hsave
      simp only [Option.some.injEq] at hsave
      subst hsave
      simp only at hst
      simp [hst]
  · intro w cfg hne
    cases hc : cfg.channel with
    | stable => exact absurd (check_and_update_stable_keeps_file w cfg hc) hne
    | dev => rfl
  · intro w cfg hagree hinv hst
    rw [check_and_update_channel_preserved] at hst
    cases hc : cfg.channel with
    | stable =>
      rw [check_and_update_stable_keeps_file w cfg hc]
      exact hinv hst
    | dev =>
      have hdev : w.channelFile.channel = UpdateChannel.dev := by rw [← hagree, hc]
      rw [hdev] at hst
      exact absurd hst (by simp)

/-- Witness for C10: `--channel stable` on a Dev config with a stored
build id saves `⟨stable, none⟩`. -/
theorem channel_stable_invariant_witness :
    ∃ saved,
      (resolve_channel ["upmc.exe", "--channel", "stable"] ⟨.dev, some "abc1234"⟩).2
          = some saved ∧
      saved.dev_build_id = none := by
  have h : (resolve_channel ["upmc.exe", "--channel", "stable"] ⟨.dev, some "abc1234"⟩).2
      = some ⟨.stable, none⟩ := by decide
  exact ⟨⟨.stable, none⟩, h, channel_stable_invariant.1 _ _ _ h rfl⟩
